import Mathlib

/-!
Verification development for the vscode-session-builder extension
(`src/extension.ts`).  The data model and the operations are shallowly
embedded: each Lean definition below mirrors one TypeScript function or
interface of the source; external Node/VS Code primitives (file system,
prompts, JSON parsing) are represented by explicit inputs and result values.
-/

/-- Mirrors `interface SavedCursorPosition` (`extension.ts:16-19`). -/
structure SavedCursorPosition where
  line : Nat
  character : Nat
deriving DecidableEq, Repr

/-- Mirrors `interface SavedTabState` (`extension.ts:21-29`).  `viewColumn`
is optional in the source; it is an opaque host column identifier. -/
structure SavedTabState where
  uri : String
  groupIndex : Nat
  tabIndex : Nat
  viewColumn : Option Int
  isGroupActive : Bool
  isGlobalActive : Bool
  cursor : Option SavedCursorPosition
deriving DecidableEq, Repr

/-- Mirrors `interface SessionFileContent` (`extension.ts:31-34`):
a schema version plus the list of tab descriptors. -/
structure SessionFileContent where
  version : Int
  tabs : List SavedTabState
deriving DecidableEq, Repr

/-- The comparator passed to `Array.prototype.sort` in
`restoreSessionFromEntry` (`extension.ts:412-420`), translated literally:
equal `groupIndex` and equal `isGroupActive` compare by `tabIndex`
difference; equal `groupIndex` with differing activity puts the active tab
after (+1) the inactive one (-1); otherwise `groupIndex` difference. -/
def tsCmp (a b : SavedTabState) : Int :=
  if a.groupIndex = b.groupIndex then
    if a.isGroupActive = b.isGroupActive then
      (a.tabIndex : Int) - (b.tabIndex : Int)
    else
      if a.isGroupActive then 1 else -1
  else
    (a.groupIndex : Int) - (b.groupIndex : Int)

/-- `a` may be placed no later than `b` by the source comparator:
`tsCmp a b ≤ 0`.  JS `Array.prototype.sort` with a consistent comparator
orders the array so that consecutive elements satisfy this relation. -/
def tsLe (a b : SavedTabState) : Prop := tsCmp a b ≤ 0

instance : DecidableRel tsLe := fun _ _ => Int.decLe _ _

/-- Rank used to state the spec's ordering: pane-inactive (0) before
pane-active (1). -/
def activeRank (b : Bool) : Nat := if b then 1 else 0

/-- The replay ordering exactly as the spec words it: ascending
`groupIndex`; within equal `groupIndex`, pane-inactive tabs before the
pane-active tab; within equal activity, ascending `tabIndex`. -/
def specRestoreLe (a b : SavedTabState) : Prop :=
  a.groupIndex < b.groupIndex ∨
    (a.groupIndex = b.groupIndex ∧
      (activeRank a.isGroupActive < activeRank b.isGroupActive ∨
        (a.isGroupActive = b.isGroupActive ∧ a.tabIndex ≤ b.tabIndex)))

theorem tsLe_iff_specRestoreLe (a b : SavedTabState) :
    tsLe a b ↔ specRestoreLe a b := by
  unfold tsLe tsCmp specRestoreLe
  by_cases hg : a.groupIndex = b.groupIndex
  · by_cases ha : a.isGroupActive = b.isGroupActive
    · simp [hg, ha]
    · cases h1 : a.isGroupActive <;> cases h2 : b.isGroupActive <;>
        simp [hg, h1, h2, activeRank] at ha ⊢
  · simp [hg]
    omega

theorem specRestoreLe_total (a b : SavedTabState) :
    specRestoreLe a b ∨ specRestoreLe b a := by
  unfold specRestoreLe
  cases h1 : a.isGroupActive <;> cases h2 : b.isGroupActive <;>
    simp [activeRank] <;> omega

theorem specRestoreLe_trans {a b c : SavedTabState}
    (hab : specRestoreLe a b) (hbc : specRestoreLe b c) : specRestoreLe a c := by
  unfold specRestoreLe at hab hbc ⊢
  cases h1 : a.isGroupActive <;> cases h2 : b.isGroupActive <;>
    cases h3 : c.isGroupActive <;> simp [h1, h2, h3, activeRank] at hab hbc ⊢ <;>
    omega

instance : IsTotal SavedTabState tsLe :=
  ⟨fun a b => by
    rw [tsLe_iff_specRestoreLe, tsLe_iff_specRestoreLe]
    exact specRestoreLe_total a b⟩

instance : IsTrans SavedTabState tsLe :=
  ⟨fun a b c hab hbc => by
    rw [tsLe_iff_specRestoreLe] at hab hbc ⊢
    exact specRestoreLe_trans hab hbc⟩

/-- `[...sessionData.tabs].sort(comparator)` (`extension.ts:412`).  JS
`Array.prototype.sort` is a stable sort; with the comparator above (a total
preorder) every stable sort computes the same list, so it is embedded as a
stable insertion sort ordered by `tsLe`. -/
def sortSessionTabs (tabs : List SavedTabState) : List SavedTabState :=
  List.insertionSort tsLe tabs

/-- First descriptor of the spec's concrete sort example:
`{groupIndex:0, tabIndex:1, isGroupActive:false}`. -/
def exTabIdx1Inactive : SavedTabState :=
  { uri := "file:///a", groupIndex := 0, tabIndex := 1, viewColumn := some 1,
    isGroupActive := false, isGlobalActive := false, cursor := none }

/-- Second descriptor of the spec's concrete sort example:
`{groupIndex:0, tabIndex:0, isGroupActive:false}`. -/
def exTabIdx0Inactive : SavedTabState :=
  { uri := "file:///b", groupIndex := 0, tabIndex := 0, viewColumn := some 1,
    isGroupActive := false, isGlobalActive := false, cursor := none }

/-- Third descriptor of the spec's concrete sort example:
`{groupIndex:0, tabIndex:0, isGroupActive:true}`. -/
def exTabIdx0Active : SavedTabState :=
  { uri := "file:///c", groupIndex := 0, tabIndex := 0, viewColumn := some 1,
    isGroupActive := true, isGlobalActive := true, cursor := none }

/-- C1: the restore engine's sort orders tab descriptors by ascending
`groupIndex`, then pane-inactive before pane-active, then ascending
`tabIndex` (the result is a permutation of the input sorted by that
relation); and on the spec's three concrete descriptors the replay order is
tabIndex 0 (inactive), tabIndex 1 (inactive), tabIndex 0 (active). -/
theorem restore_sort_ordering :
    (∀ tabs : List SavedTabState,
        (sortSessionTabs tabs).Perm tabs ∧
          List.Sorted specRestoreLe (sortSessionTabs tabs)) ∧
      sortSessionTabs [exTabIdx1Inactive, exTabIdx0Inactive, exTabIdx0Active] =
        [exTabIdx0Inactive, exTabIdx1Inactive, exTabIdx0Active] := by
  refine ⟨fun tabs => ⟨List.perm_insertionSort tsLe tabs, ?_⟩, by decide⟩
  exact (List.sorted_insertionSort tsLe tabs).imp
    (fun h => (tsLe_iff_specRestoreLe _ _).mp h)

/-- JSON values as produced by `JSON.parse`.  Numbers are modelled as
integers (the session schema only uses integral fields); object fields keep
their textual order, and a duplicated key denotes the JS behaviour that the
last occurrence wins. -/
inductive JValue where
  | jnull
  | jbool (b : Bool)
  | jnum (n : Int)
  | jstr (s : String)
  | jarr (elems : List JValue)
  | jobj (fields : List (String × JValue))

/-- JS property lookup on a parsed object: the last occurrence of a
duplicated key wins. -/
def jlookup (fields : List (String × JValue)) (key : String) : Option JValue :=
  (fields.reverse.find? (fun kv => kv.1 == key)).map (·.2)

/-- The result of `readSessionFile` when it succeeds: the `version`
(defaulted) and the raw `tabs` array.  The source casts
`parsed.tabs as SavedTabState[]` without validating the elements, so the
tabs stay untyped JSON values here. -/
structure RawSession where
  version : Int
  tabs : List JValue

/-- The shape test and field extraction of `readSessionFile`
(`extension.ts:360-364`): `parsed && typeof parsed === 'object' &&
Array.isArray(parsed.tabs)` holds exactly for a JSON object whose `tabs`
property is an array (`null` is falsy; arrays and primitives have no `tabs`
property); `version` defaults to 1 unless it is a number. -/
def parseSessionShape (v : JValue) : Option RawSession :=
  match v with
  | .jobj fields =>
    match jlookup fields "tabs" with
    | some (.jarr tabs) =>
      some { version := match jlookup fields "version" with
                        | some (.jnum n) => n
                        | _ => 1,
             tabs := tabs }
    | _ => none
  | _ => none

/-- Outcome of `fs.promises.readFile` + `JSON.parse` inside the `try` of
`readSessionFile`: a successfully parsed value, a `JSON.parse` exception
(malformed JSON), an `ENOENT` error, or any other read error. -/
inductive FileReadResult where
  | parsed (v : JValue)
  | parseError
  | enoent
  | ioError

/-- Which warning message `readSessionFile` shows:
`"Session file is invalid"`, `"Session file not found"` or
`"Failed to read session file"`. -/
inductive SessionWarning where
  | noWarning
  | invalidSession
  | fileNotFound
  | readFailed
deriving DecidableEq, Repr

/-- `readSessionFile` (`extension.ts:356-376`).  The `try` block wraps the
read, the parse and the shape test, so a `JSON.parse` exception lands in
the `catch`, whose `err.code === 'ENOENT'` branch distinguishes a missing
file from every other failure.  The function is total and returns
`undefined` (here `none`) in every failure case: no error propagates to
the caller. -/
def readSessionFile (r : FileReadResult) : Option RawSession × SessionWarning :=
  match r with
  | .parsed v =>
    match parseSessionShape v with
    | some s => (some s, .noWarning)
    | none => (none, .invalidSession)
  | .parseError => (none, .readFailed)
  | .enoent => (none, .fileNotFound)
  | .ioError => (none, .readFailed)

/-- The warning C4 predicts for each failing read condition. -/
def expectedWarning (r : FileReadResult) : SessionWarning :=
  match r with
  | .parsed _ => .invalidSession
  | .parseError => .readFailed
  | .enoent => .fileNotFound
  | .ioError => .readFailed

/-- C4: whenever the file content is not a JSON object with a `tabs` array
(malformed JSON, missing file, unreadable file, or wrong shape),
`readSessionFile` returns no data (`none`) together with the warning
describing the condition; being a total function, it never propagates an
error to the caller. -/
theorem readSessionFile_failure (r : FileReadResult)
    (h : ∀ v, r = .parsed v → parseSessionShape v = none) :
    readSessionFile r = (none, expectedWarning r) := by
  cases r with
  | parsed v =>
    have hv := h v rfl
    simp [readSessionFile, expectedWarning, hv]
  | parseError => rfl
  | enoent => rfl
  | ioError => rfl

/-- Witness for C4: a JSON number is not a session object, so reading it
yields no data and the invalid-session warning. -/
theorem readSessionFile_failure_witness :
    readSessionFile (.parsed (.jnum 3)) = (none, .invalidSession) :=
  readSessionFile_failure (.parsed (.jnum 3))
    (fun v hv => by cases hv; rfl)

/-- C5: for a JSON object whose `tabs` property is an array, the load path
succeeds with the parsed tabs and no warning; the `version` becomes 1 when
the `version` property is absent or not a number, and is preserved as-is
when it is a number. -/
theorem readSessionFile_version_default (fields : List (String × JValue))
    (tabs : List JValue)
    (htabs : jlookup fields "tabs" = some (.jarr tabs)) :
    ((∀ n : Int, jlookup fields "version" ≠ some (.jnum n)) →
        readSessionFile (.parsed (.jobj fields)) =
          (some ⟨1, tabs⟩, .noWarning)) ∧
      (∀ n : Int, jlookup fields "version" = some (.jnum n) →
        readSessionFile (.parsed (.jobj fields)) =
          (some ⟨n, tabs⟩, .noWarning)) := by
  constructor
  · intro hnone
    simp only [readSessionFile, parseSessionShape, htabs]
  · intro n hn
    simp only [readSessionFile, parseSessionShape, htabs, hn]

/-- Witness for C5: a file `{"tabs": [3]}` with no `version` key loads as
version 1 with the given tabs, and a file `{"version": 7, "tabs": [3]}`
keeps version 7. -/
theorem readSessionFile_version_default_witness :
    readSessionFile (.parsed (.jobj [("tabs", .jarr [.jnum 3])])) =
        (some ⟨1, [.jnum 3]⟩, .noWarning) ∧
      readSessionFile
          (.parsed (.jobj [("version", .jnum 7), ("tabs", .jarr [.jnum 3])])) =
        (some ⟨7, [.jnum 3]⟩, .noWarning) :=
  ⟨(readSessionFile_version_default [("tabs", .jarr [.jnum 3])] [.jnum 3]
        rfl).1
      (fun n h => by simp [jlookup, List.find?] at h),
    (readSessionFile_version_default
        [("version", .jnum 7), ("tabs", .jarr [.jnum 3])] [.jnum 3] rfl).2
      7 rfl⟩

/-- `if (!sessionName) sessionName = "session-" + timestamp` in
`registerSaveSessionCommand` (`extension.ts:534-536`) and in the save
branch of `registerRestoreNamedSessionCommand` (`extension.ts:629-631`).
`showInputBox` yields `undefined` (`none`) when the prompt is dismissed and
`""` when submitted empty; both are falsy, so the timestamped fallback name
is used. -/
def chooseSessionName (nameInput : Option String) (timestampName : String) : String :=
  match nameInput with
  | none => timestampName
  | some s => if s = "" then timestampName else s

/-- Result of the save-session command: inform-and-abort when the snapshot
has no tabs, silent abort when no storage directory resolves, or a write of
the snapshot to the given path. -/
inductive SaveOutcome where
  | nothingToSave
  | noFolder
  | saved (path : String) (content : SessionFileContent)
deriving DecidableEq, Repr

/-- The `session-saver.saveSession` handler (`extension.ts:528-555`):
prompt for a name (falling back to the timestamped name), snapshot, abort
with an informational message when no tabs are eligible, abort when the
session directory cannot be resolved, otherwise write
`<folder>/<name>.json`.  The prompt result, the timestamp, the snapshot and
the resolved directory are the handler's external inputs. -/
def saveSessionCommand (nameInput : Option String) (timestampName : String)
    (snapshot : SessionFileContent) (sessionFolder : Option String) :
    SaveOutcome :=
  let sessionName := chooseSessionName nameInput timestampName
  if snapshot.tabs.length = 0 then .nothingToSave
  else
    match sessionFolder with
    | none => .noFolder
    | some dir => .saved (dir ++ "/" ++ sessionName ++ ".json") snapshot

/-- Result of the save branch of restore-named-session: additionally the
user can cancel at the unsaved-files prompt. -/
inductive SaveBranchOutcome where
  | canceledUnsaved
  | nothingToSave
  | noFolder
  | saved (path : String) (content : SessionFileContent)
deriving DecidableEq, Repr

/-- The `finalChoice === 'Yes — Save and Continue'` branch of
`registerRestoreNamedSessionCommand` (`extension.ts:603-641`): if there are
dirty documents, a quick pick offers saving them, continuing without
saving, or cancelling (`'Cancel'` aborts; a dismissed pick falls through);
then snapshot, nothing-to-save check, name prompt with timestamped
fallback, directory resolution and the write of `<folder>/<name>.json`. -/
def restoreNamedSaveBranch (hasUnsaved : Bool) (saveConfirm : Option String)
    (snapshot : SessionFileContent) (nameInput : Option String)
    (timestampName : String) (sessionFolder : Option String) :
    SaveBranchOutcome :=
  if hasUnsaved = true ∧ saveConfirm = some "Cancel" then .canceledUnsaved
  else if snapshot.tabs.length = 0 then .nothingToSave
  else
    let sessionName := chooseSessionName nameInput timestampName
    match sessionFolder with
    | none => .noFolder
    | some dir => .saved (dir ++ "/" ++ sessionName ++ ".json") snapshot

/-- Result of the overwrite-session command. -/
inductive OverwriteOutcome where
  | notConfirmed
  | canceledUnsaved
  | nothingToSave
  | overwritten (path : String) (content : SessionFileContent)
deriving DecidableEq, Repr

/-- The `session-saver.overwriteSession` handler for a resolved entry
(`extension.ts:694-728`): modal confirmation (anything but `'Overwrite'`
aborts), the unsaved-files quick pick (`'Cancel'` aborts), snapshot,
nothing-to-save check, then the write to the existing entry's path. -/
def overwriteSessionCommand (entryPath : String) (confirm : Option String)
    (hasUnsaved : Bool) (saveConfirm : Option String)
    (snapshot : SessionFileContent) : OverwriteOutcome :=
  if confirm ≠ some "Overwrite" then .notConfirmed
  else if hasUnsaved = true ∧ saveConfirm = some "Cancel" then .canceledUnsaved
  else if snapshot.tabs.length = 0 then .nothingToSave
  else .overwritten entryPath snapshot

/-- A one-tab snapshot used in concrete counterexamples and witnesses. -/
def demoSnapshot : SessionFileContent :=
  { version := 2, tabs := [exTabIdx0Active] }

/-- Counterexample to C2: with the session-name prompt dismissed
(`showInputBox` returning `undefined`), a nonempty snapshot and a resolved
session directory, the save-session command does not abort — it writes the
snapshot to a timestamp-named file, so the dismissal is not treated as a
cancellation. -/
theorem saveSession_dismissed_prompt_still_writes :
    saveSessionCommand none "session-2025-01-01T00-00-00-000Z" demoSnapshot
        (some "/sessions") =
      .saved "/sessions/session-2025-01-01T00-00-00-000Z.json" demoSnapshot := by
  decide

/-- C2 (amended): dismissing the session-name prompt (or submitting an
empty name) is not a cancellation: both the save-session command and the
save branch of restore-named-session substitute the timestamped fallback
name and, given a nonempty snapshot and a resolved directory, write the
snapshot to `<folder>/<timestampName>.json`. -/
theorem dismissed_name_prompt_uses_timestamped_name
    (nameInput : Option String) (timestampName : String)
    (snapshot : SessionFileContent) (dir : String)
    (hname : nameInput = none ∨ nameInput = some "")
    (htabs : snapshot.tabs ≠ []) :
    saveSessionCommand nameInput timestampName snapshot (some dir) =
        .saved (dir ++ "/" ++ timestampName ++ ".json") snapshot ∧
      ∀ hasUnsaved saveConfirm,
        ¬(hasUnsaved = true ∧ saveConfirm = some "Cancel") →
          restoreNamedSaveBranch hasUnsaved saveConfirm snapshot nameInput
              timestampName (some dir) =
            .saved (dir ++ "/" ++ timestampName ++ ".json") snapshot := by
  have hlen : ¬ snapshot.tabs.length = 0 := by
    simpa [List.length_eq_zero] using htabs
  have hchoose : chooseSessionName nameInput timestampName = timestampName := by
    rcases hname with h | h <;> simp [chooseSessionName, h]
  constructor
  · simp [saveSessionCommand, hlen, hchoose]
  · intro hasUnsaved saveConfirm hcancel
    simp [restoreNamedSaveBranch, hcancel, hlen, hchoose]

/-- Witness for the amended C2, applying it with a dismissed prompt, a
one-tab snapshot and a resolved directory. -/
theorem dismissed_name_prompt_uses_timestamped_name_witness :
    saveSessionCommand none "session-t" demoSnapshot (some "/s") =
        .saved ("/s" ++ "/" ++ "session-t" ++ ".json") demoSnapshot ∧
      restoreNamedSaveBranch false none demoSnapshot none "session-t"
          (some "/s") =
        .saved ("/s" ++ "/" ++ "session-t" ++ ".json") demoSnapshot := by
  have h := dismissed_name_prompt_uses_timestamped_name none "session-t"
    demoSnapshot "/s" (Or.inl rfl) (by decide)
  exact ⟨h.1, h.2 false none (by simp)⟩

/-- C3: whenever the captured snapshot has zero eligible tabs, none of the
three saving flows writes a file: save-session, the save branch of
restore-named-session (when it reaches the snapshot), and
overwrite-session (when confirmed and not cancelled at the unsaved-files
prompt) all abort with the nothing-to-save message, leaving every file on
disk unchanged. -/
theorem empty_snapshot_never_writes (snapshot : SessionFileContent)
    (hempty : snapshot.tabs = []) :
    (∀ nameInput timestampName sessionFolder,
        saveSessionCommand nameInput timestampName snapshot sessionFolder =
          .nothingToSave) ∧
      (∀ hasUnsaved saveConfirm nameInput timestampName sessionFolder,
        ¬(hasUnsaved = true ∧ saveConfirm = some "Cancel") →
          restoreNamedSaveBranch hasUnsaved saveConfirm snapshot nameInput
              timestampName sessionFolder = .nothingToSave) ∧
      (∀ entryPath hasUnsaved saveConfirm,
        ¬(hasUnsaved = true ∧ saveConfirm = some "Cancel") →
          overwriteSessionCommand entryPath (some "Overwrite") hasUnsaved
              saveConfirm snapshot = .nothingToSave) := by
  refine ⟨fun nameInput timestampName sessionFolder => ?_,
    fun hasUnsaved saveConfirm nameInput timestampName sessionFolder hcancel => ?_,
    fun entryPath hasUnsaved saveConfirm hcancel => ?_⟩
  · simp [saveSessionCommand, hempty]
  · simp [restoreNamedSaveBranch, hempty, hcancel]
  · simp [overwriteSessionCommand, hempty, hcancel]

/-- Witness for C3: an empty snapshot makes all three flows report
nothing-to-save at concrete inputs. -/
theorem empty_snapshot_never_writes_witness :
    saveSessionCommand (some "n") "t" ⟨2, []⟩ (some "/s") = .nothingToSave ∧
      restoreNamedSaveBranch false none ⟨2, []⟩ (some "n") "t" (some "/s") =
        .nothingToSave ∧
      overwriteSessionCommand "/s/old.json" (some "Overwrite") false none
          ⟨2, []⟩ = .nothingToSave := by
  have h := empty_snapshot_never_writes ⟨2, []⟩ rfl
  exact ⟨h.1 (some "n") "t" (some "/s"),
    h.2.1 false none (some "n") "t" (some "/s") (by simp),
    h.2.2 "/s/old.json" false none (by simp)⟩

/-- One entry of `collectTextTabs()` as seen by the reconcile loop of
`restoreSessionFromEntry`: the tab's UI label and its URI rendered as a
string (`uri.toString()`). -/
structure CurrentTab where
  label : String
  uri : String
deriving DecidableEq, Repr

/-- The per-tab reconcile loop of `restoreSessionFromEntry`
(`extension.ts:392-408`): walk the currently open text tabs in order; a tab
whose URI is in the session's URI set is skipped; otherwise the user is
prompted (the `k`-th prompt answer is `f k`, `none` modelling a dismissed
modal) and any answer other than `'Close Tab'` aborts the loop
(`Except.error` carries the URIs closed so far), while `'Close Tab'` closes
the tab and continues.  `Except.ok` carries all closed URIs when the loop
finishes. -/
def reconcileTabs (sessionUris : List String) (f : Nat → Option String) :
    List CurrentTab → Nat → List String → Except (List String) (List String)
  | [], _, closed => .ok closed
  | t :: rest, k, closed =>
    if t.uri ∈ sessionUris then
      reconcileTabs sessionUris f rest k closed
    else if f k = some "Close Tab" then
      reconcileTabs sessionUris f rest (k + 1) (closed ++ [t.uri])
    else
      .error closed

/-- The `globalActive` accumulator of the replay loop
(`extension.ts:422-447`): starts `undefined` and is overwritten by every
descriptor with `isGlobalActive`, so it ends as the last such descriptor
in replay order. -/
def finalGlobalActive (tabs : List SavedTabState) : Option SavedTabState :=
  tabs.foldl (fun acc tabState =>
    if tabState.isGlobalActive then some tabState else acc) none

/-- Observable outcome of `restoreSessionFromEntry`
(`extension.ts:378-470`): missing/invalid session data, an empty session,
a user cancellation during the reconcile loop (with the URIs closed before
it — nothing else was changed: no close-all ran and no session tab was
opened), or completion (URIs closed in the loop, the descriptors replayed
in sorted order, and the descriptor given final focus). -/
inductive RestoreOutcome where
  | noData
  | emptySession
  | canceled (closedUris : List String)
  | completed (closedUris : List String) (replayed : List SavedTabState)
      (finalFocus : Option SavedTabState)
deriving DecidableEq, Repr

/-- `restoreSessionFromEntry` (`extension.ts:378-470`): abort on missing
data, warn-and-return on an empty tab list, run the reconcile loop over the
open tabs, then close all editors and replay the sorted descriptors,
giving final focus to the last `isGlobalActive` descriptor observed. -/
def restoreSessionFromEntry (sessionData : Option SessionFileContent)
    (currentTabs : List CurrentTab) (f : Nat → Option String) :
    RestoreOutcome :=
  match sessionData with
  | none => .noData
  | some d =>
    if d.tabs.length = 0 then .emptySession
    else
      match reconcileTabs (d.tabs.map (·.uri)) f currentTabs 0 [] with
      | .error closed => .canceled closed
      | .ok closed =>
        .completed closed (sortSessionTabs d.tabs)
          (finalGlobalActive (sortSessionTabs d.tabs))

/-- The currently open tabs that are not part of the session: exactly the
ones the reconcile loop prompts about. -/
def nonSessionTabs (sessionUris : List String) (tabs : List CurrentTab) :
    List CurrentTab :=
  tabs.filter (fun t => decide (t.uri ∉ sessionUris))

theorem reconcileTabs_closes_front (sessionUris : List String)
    (f : Nat → Option String) (rest : List CurrentTab) :
    ∀ (pre : List CurrentTab) (k : Nat) (closed : List String),
      (∀ j, j < (nonSessionTabs sessionUris pre).length →
          f (k + j) = some "Close Tab") →
      reconcileTabs sessionUris f (pre ++ rest) k closed =
        reconcileTabs sessionUris f rest
          (k + (nonSessionTabs sessionUris pre).length)
          (closed ++ (nonSessionTabs sessionUris pre).map (·.uri)) := by
  intro pre
  induction pre with
  | nil => intro k closed _; simp [nonSessionTabs]
  | cons t pre ih =>
    intro k closed h
    by_cases hmem : t.uri ∈ sessionUris
    · have hns : nonSessionTabs sessionUris (t :: pre) =
          nonSessionTabs sessionUris pre := by
        simp [nonSessionTabs, List.filter_cons, hmem]
      rw [List.cons_append, reconcileTabs, if_pos hmem, ih k closed ?_, hns]
      rw [hns] at h
      exact h
    · have hns : nonSessionTabs sessionUris (t :: pre) =
          t :: nonSessionTabs sessionUris pre := by
        simp [nonSessionTabs, List.filter_cons, hmem]
      have hf : f k = some "Close Tab" := by
        have := h 0 (by rw [hns]; simp)
        simpa using this
      rw [List.cons_append, reconcileTabs, if_neg hmem, if_pos hf,
        ih (k + 1) (closed ++ [t.uri]) ?_, hns]
      · have harith : k + 1 + (nonSessionTabs sessionUris pre).length =
            k + (t :: nonSessionTabs sessionUris pre).length := by
          simp; omega
        rw [harith, List.append_assoc]
        rfl
      · intro j hj
        have := h (j + 1) (by rw [hns]; simpa using Nat.succ_lt_succ hj)
        simpa [Nat.add_assoc, Nat.add_comm 1 j] using this

/-- C6: during restore, every open tab whose URI is not in the session's
URI set triggers a modal prompt; if all earlier prompts were answered
`'Close Tab'` and the prompt for tab `t` gets any other answer (including a
dismissed modal), the restore returns immediately reporting cancellation,
its only state change being the already-closed non-session tabs before `t`
— no close-all is executed and no session tab is opened. -/
theorem restore_cancel_on_refusal (d : SessionFileContent)
    (pre post : List CurrentTab) (t : CurrentTab) (f : Nat → Option String)
    (hne : d.tabs ≠ [])
    (hnotin : t.uri ∉ d.tabs.map (·.uri))
    (hclose : ∀ j, j < (nonSessionTabs (d.tabs.map (·.uri)) pre).length →
        f j = some "Close Tab")
    (hrefuse : f (nonSessionTabs (d.tabs.map (·.uri)) pre).length ≠
        some "Close Tab") :
    restoreSessionFromEntry (some d) (pre ++ t :: post) f =
      .canceled ((nonSessionTabs (d.tabs.map (·.uri)) pre).map (·.uri)) := by
  have hlen : ¬ d.tabs.length = 0 := by
    simpa [List.length_eq_zero] using hne
  rw [restoreSessionFromEntry, if_neg hlen,
    reconcileTabs_closes_front (d.tabs.map (·.uri)) f (t :: post) pre 0 []
      (fun j hj => by simpa using hclose j hj),
    reconcileTabs, if_neg hnotin, if_neg (by simpa using hrefuse)]
  simp

/-- Witness for C6: restoring a one-tab session while one unrelated tab is
open and dismissing the modal cancels the restore with nothing closed. -/
theorem restore_cancel_on_refusal_witness :
    restoreSessionFromEntry (some demoSnapshot)
        ([] ++ (⟨"Other", "file:///x"⟩ : CurrentTab) :: []) (fun _ => none) =
      .canceled ((nonSessionTabs (demoSnapshot.tabs.map (·.uri)) []).map
        (·.uri)) :=
  restore_cancel_on_refusal demoSnapshot [] []
    (⟨"Other", "file:///x"⟩ : CurrentTab) (fun _ => none)
    (by decide) (by decide)
    (fun j hj => absurd hj (by simp [nonSessionTabs]))
    (by simp [nonSessionTabs])

/-- A host URI: scheme plus the remainder, rendered by `toString` as
`scheme://rest`. -/
structure SUri where
  scheme : String
  rest : String
deriving DecidableEq, Repr

/-- `uri.toString()` for the model URI. -/
def SUri.render (u : SUri) : String := u.scheme ++ "://" ++ u.rest

/-- The tab-input shapes distinguished by `getTabUri`
(`extension.ts:297-320`): no input, a text tab, a diff tab (original and
modified side), a merge tab (whose `destination` may be absent), or any
other input kind. -/
inductive TabInput where
  | noInput
  | text (uri : SUri)
  | textDiff (original modified : SUri)
  | textMerge (destination : Option SUri)
  | otherKind
deriving DecidableEq, Repr

/-- `getTabUri` (`extension.ts:297-320`): a text tab yields its URI, a
diff tab its modified side, a merge tab its destination when present, and
everything else `undefined`. -/
def getTabUri : TabInput → Option SUri
  | .noInput => none
  | .text uri => some uri
  | .textDiff _ modified => some modified
  | .textMerge (some destination) => some destination
  | .textMerge none => none
  | .otherKind => none

/-- A live editor tab.  `id` models JS object identity (`===`) and is
unique across the window. -/
structure WTab where
  id : Nat
  input : TabInput
  isActive : Bool
deriving DecidableEq, Repr

/-- A live tab group (split pane): its host view column and its tabs. -/
structure WGroup where
  viewColumn : Int
  tabs : List WTab
deriving DecidableEq, Repr

/-- `group.activeTab`: the host exposes the focused tab of a pane, the one
with `isActive` set. -/
def WGroup.currentActive (g : WGroup) : Option WTab :=
  g.tabs.find? (·.isActive)

/-- The whole window: `vscode.window.tabGroups.all` plus the index of
`activeTabGroup` when one exists. -/
structure WindowState where
  groups : List WGroup
  activeGroupIdx : Option Nat
deriving DecidableEq, Repr

/-- The identity (`id`) of `activeTabGroup?.activeTab`, the tab compared
by `===` against each enumerated tab in `createSessionSnapshot`. -/
def windowActiveTabId (w : WindowState) : Option Nat :=
  match w.activeGroupIdx with
  | none => none
  | some i =>
    match w.groups.get? i with
    | none => none
    | some g => (WGroup.currentActive g).map (·.id)

/-- One element of the array built by `collectTextTabs`
(`extension.ts:322-333`): the tab, its file URI, its group and the group
and tab indices. -/
structure CollectedTab where
  tab : WTab
  uri : SUri
  group : WGroup
  groupIndex : Nat
  tabIndex : Nat
deriving DecidableEq, Repr

/-- `collectTextTabs` (`extension.ts:322-333`): enumerate all groups and
their tabs with indices, keeping the tabs whose `getTabUri` is defined and
has the `file` scheme. -/
def collectTextTabs (w : WindowState) : List CollectedTab :=
  w.groups.enum.flatMap fun gi =>
    gi.2.tabs.enum.filterMap fun ti =>
      match getTabUri ti.2.input with
      | some uri =>
        if uri.scheme = "file" then
          some { tab := ti.2, uri := uri, group := gi.2,
                 groupIndex := gi.1, tabIndex := ti.1 }
        else none
      | none => none

/-- The cursor tracker's map (`lastKnownCursorPositions`), queried by the
URI string. -/
def lookupCursor (cursors : List (String × SavedCursorPosition))
    (uri : String) : Option SavedCursorPosition :=
  (cursors.find? (fun kv => kv.1 == uri)).map (·.2)

/-- `createSessionSnapshot` (`extension.ts:335-354`): map every collected
text tab to a descriptor; `isGroupActive` is the tab's own active flag,
`isGlobalActive` compares the tab (by identity) against the active tab of
the window's active group, and the version is `SESSION_FILE_VERSION = 2`. -/
def createSessionSnapshot (w : WindowState)
    (cursors : List (String × SavedCursorPosition)) : SessionFileContent :=
  { version := 2,
    tabs := (collectTextTabs w).map fun c =>
      { uri := c.uri.render,
        groupIndex := c.groupIndex,
        tabIndex := c.tabIndex,
        viewColumn := some c.group.viewColumn,
        isGroupActive := c.tab.isActive,
        isGlobalActive := windowActiveTabId w == some c.tab.id,
        cursor := lookupCursor cursors c.uri.render } }

theorem filterMap_enumFrom_tab_sublist
    (F : Nat × WTab → Option CollectedTab)
    (hF : ∀ p c, F p = some c → c.tab = p.2) :
    ∀ (l : List WTab) (n : Nat),
      List.Sublist (((List.enumFrom n l).filterMap F).map (·.tab)) l := by
  intro l
  induction l with
  | nil => intro n; simp
  | cons a l ih =>
    intro n
    rw [List.enumFrom, List.filterMap_cons]
    cases hc : F (n, a) with
    | none => exact (ih (n + 1)).cons a
    | some c =>
      rw [List.map_cons, hF _ _ hc]
      exact (ih (n + 1)).cons₂ a

theorem collectTextTabs_tab_sublist (w : WindowState) :
    List.Sublist ((collectTextTabs w).map (·.tab))
      (w.groups.flatMap (·.tabs)) := by
  unfold collectTextTabs
  rw [List.enum]
  generalize 0 = n
  induction w.groups generalizing n with
  | nil => simp
  | cons g groups ih =>
    rw [List.enumFrom, List.flatMap_cons, List.flatMap_cons, List.map_append]
    exact List.Sublist.append
      (filterMap_enumFrom_tab_sublist _
        (fun p c hc => by
          revert hc
          cases hti : getTabUri p.2.input with
          | none => simp
          | some uri =>
            intro hc
            by_cases hs : uri.scheme = "file"
            · simp [hti, hs] at hc
              cases hc
              rfl
            · simp [hti, hs] at hc)
        g.tabs 0)
      (ih (n + 1))

theorem nodup_filter_beq_len_le_one (o : Option Nat) :
    ∀ ids : List Nat, ids.Nodup →
      (ids.filter (fun i => o == some i)).length ≤ 1 := by
  intro ids
  induction ids with
  | nil => intro _; simp
  | cons i ids ih =>
    intro hnd
    rw [List.filter_cons]
    by_cases ho : o = some i
    · rw [if_pos (by simp [ho])]
      have hnone : ids.filter (fun j => o == some j) = [] := by
        refine List.filter_eq_nil_iff.mpr (fun j hj => ?_)
        have : j ≠ i := fun hji => (List.nodup_cons.mp hnd).1 (hji ▸ hj)
        simp [ho, this.symm]
      simp [hnone]
    · rw [if_neg (by simp [ho])]
      exact ih (List.nodup_cons.mp hnd).2

theorem snapshot_globalActive_len (w : WindowState)
    (cursors : List (String × SavedCursorPosition))
    (hids : ((w.groups.flatMap (·.tabs)).map (·.id)).Nodup) :
    (((createSessionSnapshot w cursors).tabs.filter
      (·.isGlobalActive)).length ≤ 1) := by
  have hsub : List.Sublist ((collectTextTabs w).map (·.tab.id))
      ((w.groups.flatMap (·.tabs)).map (·.id)) := by
    have := (collectTextTabs_tab_sublist w).map (·.id)
    simpa [List.map_map, Function.comp] using this
  have hnd : ((collectTextTabs w).map (·.tab.id)).Nodup := hids.sublist hsub
  have hlen := nodup_filter_beq_len_le_one (windowActiveTabId w)
    ((collectTextTabs w).map (·.tab.id)) hnd
  unfold createSessionSnapshot
  rw [List.filter_map, List.length_map]
  rw [List.filter_map, List.length_map] at hlen
  exact hlen

theorem finalGlobalActive_foldl_acc :
    ∀ (l : List SavedTabState) (acc : Option SavedTabState),
      l.foldl (fun a tabState =>
          if tabState.isGlobalActive then some tabState else a) acc =
        (l.reverse.find? (·.isGlobalActive)).elim acc some := by
  intro l
  induction l with
  | nil => intro acc; simp
  | cons t l ih =>
    intro acc
    rw [List.foldl_cons, ih, List.reverse_cons, List.find?_append]
    cases hf : l.reverse.find? (·.isGlobalActive) with
    | some x => simp
    | none => cases ht : t.isGlobalActive <;> simp [List.find?, ht]

theorem finalGlobalActive_eq_last_marked (l : List SavedTabState) :
    finalGlobalActive l = l.reverse.find? (·.isGlobalActive) := by
  rw [finalGlobalActive, finalGlobalActive_foldl_acc]
  cases l.reverse.find? (·.isGlobalActive) <;> simp

/-- C7: (1) a snapshot taken from a window whose tab objects are distinct
(`id`s nodup — JS object identity guarantees this) contains at most one
descriptor with `isGlobalActive = true`, the one that compared equal (by
identity) to the active tab of the window's active group; (2) whenever the
restore engine completes, the descriptor receiving final focus is the last
`isGlobalActive` descriptor observed in replay order, even if several are
marked. -/
theorem globalActive_unique_and_last_wins :
    (∀ (w : WindowState) (cursors : List (String × SavedCursorPosition)),
        ((w.groups.flatMap (·.tabs)).map (·.id)).Nodup →
          (((createSessionSnapshot w cursors).tabs.filter
            (·.isGlobalActive)).length ≤ 1)) ∧
      (∀ (d : SessionFileContent) (currentTabs : List CurrentTab)
          (f : Nat → Option String) (closed : List String)
          (replayed : List SavedTabState) (focus : Option SavedTabState),
        restoreSessionFromEntry (some d) currentTabs f =
            .completed closed replayed focus →
          focus = replayed.reverse.find? (·.isGlobalActive)) := by
  refine ⟨snapshot_globalActive_len, ?_⟩
  intro d currentTabs f closed replayed focus h
  rw [restoreSessionFromEntry] at h
  by_cases hlen : d.tabs.length = 0
  · rw [if_pos hlen] at h
    exact absurd h (by simp)
  · rw [if_neg hlen] at h
    cases hrec : reconcileTabs (d.tabs.map (·.uri)) f currentTabs 0 [] with
    | error c =>
      rw [hrec] at h
      exact absurd h (by simp)
    | ok c =>
      rw [hrec] at h
      injection h with h1 h2 h3
      rw [← h3, ← h2]
      exact finalGlobalActive_eq_last_marked (sortSessionTabs d.tabs)

/-- Witness for C7: a window with one active file tab produces one marked
descriptor (count 1 ≤ 1), and a completed restore of the one-tab demo
session focuses that descriptor, the last marked one in replay order. -/
theorem globalActive_unique_and_last_wins_witness :
    ((((createSessionSnapshot
        ⟨[⟨1, [⟨7, .text ⟨"file", "/a"⟩, true⟩]⟩], some 0⟩ []).tabs.filter
          (·.isGlobalActive)).length ≤ 1)) ∧
      some exTabIdx0Active =
        ([exTabIdx0Active].reverse.find? (·.isGlobalActive)) := by
  constructor
  · exact globalActive_unique_and_last_wins.1
      ⟨[⟨1, [⟨7, .text ⟨"file", "/a"⟩, true⟩]⟩], some 0⟩ [] (by decide)
  · exact globalActive_unique_and_last_wins.2 demoSnapshot [] (fun _ => none)
      [] [exTabIdx0Active] (some exTabIdx0Active) (by decide)

/-- Mirrors `interface SessionFileRecord` (`extension.ts:11-14`): display
name and absolute path of one stored session file. -/
structure SessionFileRecord where
  name : String
  fullPath : String
deriving DecidableEq, Repr

/-- `file.endsWith('.json')`, the listing filter (`extension.ts:228`),
expressed over the character lists. -/
def endsWithJson (file : String) : Bool :=
  (".json".data).isSuffixOf file.data

/-- Node's `path.basename(file, '.json')` (`extension.ts:232`) for the
slash-free names returned by `readdir`: when the name ends with the
suffix it is stripped (Node's implementation starts with
`if (suffix === path) return ''`, so the name `.json` itself yields the
empty string, and every other `*.json` name loses its last five
characters); a name without the suffix is returned unchanged. -/
def basenameJson (file : String) : String :=
  if endsWithJson file then ⟨file.data.take (file.data.length - 5)⟩
  else file

theorem basenameJson_append_of_json (file : String)
    (h : endsWithJson file = true) :
    basenameJson file ++ ".json" = file := by
  have hsuf : List.IsSuffix (".json".data) file.data := by
    simpa [endsWithJson] using h
  obtain ⟨t, ht⟩ := hsuf
  apply String.ext
  rw [String.data_append, basenameJson, if_pos h]
  show (file.data.take (file.data.length - 5)) ++ ".json".data = file.data
  rw [← ht, List.length_append]
  simp [List.take_left' rfl]

theorem basenameJson_injOn_json {f g : String}
    (hf : endsWithJson f = true) (hg : endsWithJson g = true)
    (h : basenameJson f = basenameJson g) : f = g := by
  have := basenameJson_append_of_json f hf
  rw [h, basenameJson_append_of_json g hg] at this
  exact this.symm

/-- Case-insensitive lexicographic comparison over character lists,
modelling `a.localeCompare(b, undefined, { sensitivity: 'base' }) <= 0`
(`extension.ts:236`) for ASCII names: characters are compared
lowercased, and on full equality the shorter list comes first. -/
def lowerLe : List Char → List Char → Bool
  | [], _ => true
  | _ :: _, [] => false
  | a :: as, b :: bs =>
    if a.toLower.toNat < b.toLower.toNat then true
    else if b.toLower.toNat < a.toLower.toNat then false
    else lowerLe as bs

/-- Case-insensitive order on strings. -/
def ciLe (s t : String) : Prop := lowerLe s.data t.data = true

instance : DecidableRel ciLe := fun _ _ => instDecidableEqBool _ _

/-- The listing sort order: case-insensitive on the record names. -/
def recLe (a b : SessionFileRecord) : Prop := ciLe a.name b.name

instance : DecidableRel recLe := fun _ _ => instDecidableEqBool _ _

theorem lowerLe_nil_left (y : List Char) : lowerLe [] y = true := by
  cases y <;> rfl

theorem lowerLe_cons_iff (a b : Char) (as bs : List Char) :
    lowerLe (a :: as) (b :: bs) = true ↔
      a.toLower.toNat < b.toLower.toNat ∨
        (a.toLower.toNat = b.toLower.toNat ∧ lowerLe as bs = true) := by
  simp only [lowerLe]
  by_cases h1 : a.toLower.toNat < b.toLower.toNat
  · simp [h1]
  · by_cases h2 : b.toLower.toNat < a.toLower.toNat
    · simp only [if_neg h1, if_pos h2]
      constructor
      · intro h; cases h
      · rintro (h | ⟨h, -⟩) <;> omega
    · have heq : a.toLower.toNat = b.toLower.toNat := by omega
      simp [h1, h2, heq]

theorem lowerLe_total (x : List Char) :
    ∀ y : List Char, lowerLe x y = true ∨ lowerLe y x = true := by
  induction x with
  | nil => intro y; exact Or.inl (lowerLe_nil_left y)
  | cons a as ih =>
    intro y
    cases y with
    | nil => exact Or.inr (lowerLe_nil_left _)
    | cons b bs =>
      rcases Nat.lt_trichotomy a.toLower.toNat b.toLower.toNat with h | h | h
      · exact Or.inl ((lowerLe_cons_iff _ _ _ _).mpr (Or.inl h))
      · rcases ih bs with hle | hle
        · exact Or.inl ((lowerLe_cons_iff _ _ _ _).mpr (Or.inr ⟨h, hle⟩))
        · exact Or.inr ((lowerLe_cons_iff _ _ _ _).mpr (Or.inr ⟨h.symm, hle⟩))
      · exact Or.inr ((lowerLe_cons_iff _ _ _ _).mpr (Or.inl h))

theorem lowerLe_trans (x : List Char) :
    ∀ y z : List Char, lowerLe x y = true → lowerLe y z = true →
      lowerLe x z = true := by
  induction x with
  | nil => intro y z _ _; exact lowerLe_nil_left z
  | cons a as ih =>
    intro y z hxy hyz
    cases y with
    | nil => cases hxy
    | cons b bs =>
      cases z with
      | nil => cases hyz
      | cons c cs =>
        rcases (lowerLe_cons_iff _ _ _ _).mp hxy with h | ⟨heq1, hrec1⟩ <;>
          rcases (lowerLe_cons_iff _ _ _ _).mp hyz with h2 | ⟨heq2, hrec2⟩
        · exact (lowerLe_cons_iff _ _ _ _).mpr (Or.inl (by omega))
        · exact (lowerLe_cons_iff _ _ _ _).mpr (Or.inl (by omega))
        · exact (lowerLe_cons_iff _ _ _ _).mpr (Or.inl (by omega))
        · exact (lowerLe_cons_iff _ _ _ _).mpr
            (Or.inr ⟨by omega, ih bs cs hrec1 hrec2⟩)

instance : IsTotal SessionFileRecord recLe :=
  ⟨fun a b => lowerLe_total a.name.data b.name.data⟩

instance : IsTrans SessionFileRecord recLe :=
  ⟨fun a b c => lowerLe_trans a.name.data b.name.data c.name.data⟩

/-- `listSessions` (`extension.ts:220-239`) restricted to its directory
listing logic: `none` models an unresolved or nonexistent directory (both
yield an empty listing); otherwise the `readdir` result is filtered to
`*.json` names, mapped to records with the stripped display name and the
joined path, and sorted case-insensitively by name (`localeCompare` with
base sensitivity under a stable JS sort, embedded as a stable insertion
sort). -/
def listSessions (folder : Option (List String)) (folderPath : String) :
    List SessionFileRecord :=
  match folder with
  | none => []
  | some files =>
    List.insertionSort recLe
      ((files.filter endsWithJson).map
        (fun file =>
          { name := basenameJson file, fullPath := folderPath ++ "/" ++ file }))

theorem mem_listSessions (files : List String) (p : String)
    (r : SessionFileRecord) :
    r ∈ listSessions (some files) p ↔
      ∃ file, file ∈ files ∧ endsWithJson file = true ∧
        r = ⟨basenameJson file, p ++ "/" ++ file⟩ := by
  unfold listSessions
  rw [List.mem_insertionSort, List.mem_map]
  constructor
  · rintro ⟨file, hf, hr⟩
    exact ⟨file, (List.mem_filter.mp hf).1, (List.mem_filter.mp hf).2, hr.symm⟩
  · rintro ⟨file, hmem, hjson, hr⟩
    exact ⟨file, List.mem_filter.mpr ⟨hmem, hjson⟩, hr.symm⟩

/-- Observable result of the delete-session command: the directory's files
afterwards, whether `unlink` ran, and whether the deleted-message and the
sidebar refresh happened. -/
structure DeleteSessionResult where
  files : List String
  unlinked : Bool
  deletedMessageShown : Bool
  refreshed : Bool
deriving DecidableEq, Repr

/-- The confirmed part of `session-saver.deleteSession`
(`extension.ts:663-678`) acting on a directory holding `files`: anything
but `'Delete'` at the modal aborts; otherwise `unlink` runs only when the
file still exists (`fs.existsSync`), and the deleted message and the
sidebar refresh happen unconditionally afterwards. -/
def deleteSessionCommand (files : List String) (file : String)
    (confirm : Option String) : DeleteSessionResult :=
  if confirm ≠ some "Delete" then
    { files := files, unlinked := false, deletedMessageShown := false,
      refreshed := false }
  else if file ∈ files then
    { files := files.erase file, unlinked := true,
      deletedMessageShown := true, refreshed := true }
  else
    { files := files, unlinked := false, deletedMessageShown := true,
      refreshed := true }

/-- C8: a confirmed deletion of an existing session file removes exactly
that file — it is gone afterwards, every other file is still present, and
nothing new appears; the subsequent listing still contains every other
previously listed display name and no longer contains the deleted
session's display name (stripping the `.json` suffix is injective on
`*.json` names, so no remaining listed file can share it).  The
hypotheses state that the deletion was confirmed on an existing `*.json`
file in a directory of distinct filenames. -/
theorem delete_removes_exactly_chosen_file (files : List String)
    (file : String) (p : String) (hmem : file ∈ files)
    (hnd : files.Nodup) (hjson : endsWithJson file = true) :
    (deleteSessionCommand files file (some "Delete")).files =
        files.erase file ∧
      file ∉ (deleteSessionCommand files file (some "Delete")).files ∧
      (∀ g ∈ files, g ≠ file →
        g ∈ (deleteSessionCommand files file (some "Delete")).files) ∧
      (∀ g ∈ (deleteSessionCommand files file (some "Delete")).files,
        g ∈ files) ∧
      (∀ g ∈ files, g ≠ file → endsWithJson g = true →
        basenameJson g ∈
          (listSessions
            (some (deleteSessionCommand files file (some "Delete")).files)
            p).map (·.name)) ∧
      basenameJson file ∉
        (listSessions
          (some (deleteSessionCommand files file (some "Delete")).files)
          p).map (·.name) := by
  have hfiles : (deleteSessionCommand files file (some "Delete")).files =
      files.erase file := by
    simp [deleteSessionCommand, hmem]
  refine ⟨hfiles, ?_, ?_, ?_, ?_, ?_⟩
  · rw [hfiles]
    exact hnd.not_mem_erase
  · intro g hg hgf
    rw [hfiles]
    exact (List.mem_erase_of_ne hgf).mpr hg
  · intro g hg
    rw [hfiles] at hg
    exact List.mem_of_mem_erase hg
  · intro g hg hgf hgj
    rw [hfiles]
    refine List.mem_map.mpr
      ⟨⟨basenameJson g, p ++ "/" ++ g⟩, ?_, rfl⟩
    exact (mem_listSessions _ _ _).mpr
      ⟨g, (List.mem_erase_of_ne hgf).mpr hg, hgj, rfl⟩
  · intro hmem2
    rw [hfiles] at hmem2
    obtain ⟨r, hr, hrname⟩ := List.mem_map.mp hmem2
    obtain ⟨g, hg, hgj, hgr⟩ := (mem_listSessions _ _ _).mp hr
    have hgne : g ≠ file := by
      intro hg2
      exact hnd.not_mem_erase (hg2 ▸ hg)
    have hname : basenameJson g = basenameJson file := by
      rw [hgr] at hrname
      exact hrname
    exact hgne (basenameJson_injOn_json hgj hjson hname)

/-- Witness for C8: deleting `a.json` from a directory also holding
`b.json` leaves the name `b` listed and removes the name `a`. -/
theorem delete_removes_exactly_chosen_file_witness :
    (deleteSessionCommand ["a.json", "b.json"] "a.json"
        (some "Delete")).files = ["a.json", "b.json"].erase "a.json" ∧
      basenameJson "b.json" ∈
        (listSessions
          (some (deleteSessionCommand ["a.json", "b.json"] "a.json"
            (some "Delete")).files) "d").map (·.name) ∧
      basenameJson "a.json" ∉
        (listSessions
          (some (deleteSessionCommand ["a.json", "b.json"] "a.json"
            (some "Delete")).files) "d").map (·.name) := by
  have h := delete_removes_exactly_chosen_file ["a.json", "b.json"] "a.json"
    "d" (by decide) (by decide) (by decide)
  exact ⟨h.1, h.2.2.2.2.1 "b.json" (by decide) (by decide) (by decide),
    h.2.2.2.2.2⟩

/-- C9: listing an unresolved or nonexistent directory yields `[]`, not
an error; listing a directory yields exactly the records of its `*.json`
files — the display name is the filename with the final `.json` stripped
(equivalently, display name plus `.json` restores the filename) and the
path is the joined one — sorted case-insensitively by name. -/
theorem listSessions_characterization :
    (∀ p, listSessions none p = []) ∧
      (∀ files p,
        (listSessions (some files) p).Perm
            ((files.filter endsWithJson).map
              (fun file =>
                ⟨basenameJson file, p ++ "/" ++ file⟩)) ∧
          List.Sorted recLe (listSessions (some files) p)) ∧
      (∀ file, endsWithJson file = true →
        basenameJson file ++ ".json" = file) := by
  refine ⟨fun p => rfl, fun files p => ⟨?_, ?_⟩, basenameJson_append_of_json⟩
  · exact List.perm_insertionSort recLe _
  · exact List.sorted_insertionSort recLe _

/-- Witness for C9: a concrete two-file directory lists exactly its one
`.json` file, and stripping is exercised on `a.json`. -/
theorem listSessions_characterization_witness :
    (listSessions (some ["b.json", "a.txt"]) "d").Perm
        ((["b.json", "a.txt"].filter endsWithJson).map
          (fun file =>
            ⟨basenameJson file, "d" ++ "/" ++ file⟩)) ∧
      basenameJson "a.json" ++ ".json" = "a.json" :=
  ⟨(listSessions_characterization.2.1 ["b.json", "a.txt"] "d").1,
    listSessions_characterization.2.2 "a.json" (by decide)⟩

/-- C10: if the chosen session file no longer exists at confirmation time,
the confirmed delete-session command skips the unlink, leaves the
directory unchanged, and still shows the deleted message and refreshes the
sidebar — no error is surfaced (the command is a total function). -/
theorem delete_missing_file_is_noop (files : List String) (file : String)
    (hnot : file ∉ files) :
    deleteSessionCommand files file (some "Delete") =
      { files := files, unlinked := false, deletedMessageShown := true,
        refreshed := true } := by
  simp [deleteSessionCommand, hnot]

/-- Witness for C10: deleting the already-gone `b.json` from a directory
holding only `a.json` changes nothing but still reports success. -/
theorem delete_missing_file_is_noop_witness :
    deleteSessionCommand ["a.json"] "b.json" (some "Delete") =
      { files := ["a.json"], unlinked := false, deletedMessageShown := true,
        refreshed := true } :=
  delete_missing_file_is_noop ["a.json"] "b.json" (by decide)
